import Mathlib

/-!
Shallow embedding of the filter-bar widget layer (`ui/legacy/FilterBar.ts`),
the INP-breakdown insight component
(`front_end/panels/timeline/components/insights/INPBreakdown.ts`) and the
end-to-end test-harness polling helpers (`DevToolsPage`) of this repository,
together with proofs about the behavioural claims on them.

DOM nodes, CSS classes, ARIA attributes and the rendering toolkit are elided:
the embedding keeps the logical state that the claims talk about (the set of
allowed type names, the checkbox state, the list of filters and their active
flags, the overlay/section data, the polling loop) and threads it explicitly.
Event dispatches are counted: every operation that may fire events returns,
next to the new state, the number of events it dispatched.
-/

namespace FilterBarTs

/-- `NamedBitSetFilterUI.ALL_TYPES`, the sentinel name of the "All" bit. -/
def ALL_TYPES : String := "all"

/-- State of a `NamedBitSetFilterUI`.

* `typeNames` are the type names of the `typeFilterElements`, in DOM order
  (the constructor always creates the `ALL_TYPES` bit first, then one bit per
  item).
* `hasSetting` records whether a backing setting was passed to the
  constructor.
* `settingValue` is the current `Record<string, boolean>` stored in that
  setting, modelled by its lookup function (an absent key reads as the falsy
  `false`); it is meaningful only when `hasSetting` is true.
* `allowedTypes` is the `Set<string>` field `allowedTypes`. -/
structure NamedBitSetFilterUI where
  typeNames : List String
  hasSetting : Bool
  settingValue : String → Bool
  allowedTypes : Finset String

/-- `isActive()`: true when the sentinel is not in the allowed set. -/
def NamedBitSetFilterUI.isActive (f : NamedBitSetFilterUI) : Bool :=
  !(decide (ALL_TYPES ∈ f.allowedTypes))

/-- `accept(typeName)`: a record type is accepted when the sentinel is
selected or the type itself is. -/
def NamedBitSetFilterUI.accept (f : NamedBitSetFilterUI) (typeName : String) : Bool :=
  decide (ALL_TYPES ∈ f.allowedTypes) || decide (typeName ∈ f.allowedTypes)

/-- The selected state of the bit named `t` as `update()` renders it:
`element.classList.toggle('selected', active)` with
`active = allowedTypes.has(typeName)`. -/
def selected (f : NamedBitSetFilterUI) (t : String) : Bool :=
  decide (t ∈ f.allowedTypes)

/-- `update()`: normalise the allowed set (if it is empty or holds the
sentinel, it becomes exactly the sentinel singleton), refresh every bit's
selected state, and dispatch one `FILTER_CHANGED` event.  Returns the new
state and the number of `FILTER_CHANGED` events dispatched. -/
def updateOp (f : NamedBitSetFilterUI) : NamedBitSetFilterUI × Nat :=
  let s :=
    if f.allowedTypes = ∅ ∨ ALL_TYPES ∈ f.allowedTypes then ({ALL_TYPES} : Finset String)
    else f.allowedTypes
  ({ f with allowedTypes := s }, 1)

/-- `settingChanged()`: rebuild `allowedTypes` from the setting's record,
keeping only truthy type names of existing bits, then run `update()`. -/
def settingChangedOp (f : NamedBitSetFilterUI) : NamedBitSetFilterUI × Nat :=
  let allowed :=
    (f.typeNames.filter (fun t => !(t == "") && f.settingValue t)).toFinset
  updateOp { f with allowedTypes := allowed }

/-- The set rewriting at the head of `toggleTypeFilter`: without multi-select
(or on the sentinel) the set is cleared first; then the clicked name is
toggled; an empty result is refilled with the sentinel. -/
def toggledSet (s : Finset String) (typeName : String) (allowMultiSelect : Bool) :
    Finset String :=
  let s1 :=
    if allowMultiSelect && !(typeName == ALL_TYPES) then s.erase ALL_TYPES
    else (∅ : Finset String)
  let s2 := if typeName ∈ s1 then s1.erase typeName else insert typeName s1
  if s2 = ∅ then insert ALL_TYPES s2 else s2

/-- `toggleTypeFilter(typeName, allowMultiSelect)`: rewrite the allowed set
with `toggledSet`.  With a backing setting the new set is then written back
as a record (each member mapped to `true`), and the setting's change
notification runs `settingChanged()`; otherwise `update()` runs directly.
The write-back/notification round trip through the settings store is
external to this file's sources and is modelled from the spec: a `set`
stores the value and fires one change notification. -/
def toggleTypeFilterOp (f : NamedBitSetFilterUI) (typeName : String)
    (allowMultiSelect : Bool) : NamedBitSetFilterUI × Nat :=
  let s3 := toggledSet f.allowedTypes typeName allowMultiSelect
  if f.hasSetting then
    settingChangedOp
      { f with
        allowedTypes := s3
        settingValue := fun t => decide (t ∈ s3) }
  else
    updateOp { f with allowedTypes := s3 }

/-- `reset()`: toggle the sentinel without multi-select. -/
def resetOp (f : NamedBitSetFilterUI) : NamedBitSetFilterUI × Nat :=
  toggleTypeFilterOp f ALL_TYPES false

/-- The modifier-key state of a click event, as read by
`onTypeFilterClicked`. -/
structure ClickModifiers where
  metaKey : Bool
  ctrlKey : Bool
  altKey : Bool
  shiftKey : Bool

/-- The multi-select test of `onTypeFilterClicked`: on Mac the meta key
alone, elsewhere the ctrl key alone. -/
def multiSelectModifier (isMac : Bool) (e : ClickModifiers) : Bool :=
  if isMac then e.metaKey && !e.ctrlKey && !e.altKey && !e.shiftKey
  else e.ctrlKey && !e.metaKey && !e.altKey && !e.shiftKey

/-- `onTypeFilterClicked`: read the clicked bit's type name and toggle it
with the computed multi-select flag. -/
def onTypeFilterClicked (f : NamedBitSetFilterUI) (isMac : Bool)
    (e : ClickModifiers) (typeName : String) : NamedBitSetFilterUI × Nat :=
  toggleTypeFilterOp f typeName (multiSelectModifier isMac e)

/-- The constructor: one bit for the sentinel, one per item; with a setting
it subscribes and runs `settingChanged()` once, otherwise it toggles the
sentinel once. -/
def mkNamedBitSetFilterUI (itemNames : List String)
    (setting : Option (String → Bool)) : NamedBitSetFilterUI × Nat :=
  let f0 : NamedBitSetFilterUI :=
    { typeNames := ALL_TYPES :: itemNames
      hasSetting := setting.isSome
      settingValue := setting.getD (fun _ => false)
      allowedTypes := ∅ }
  match setting with
  | some _ => settingChangedOp f0
  | none => toggleTypeFilterOp f0 ALL_TYPES false

/-- The sentinel-exclusivity invariant: if the sentinel is in the allowed
set, the set is exactly the sentinel singleton. -/
def SentinelInv (f : NamedBitSetFilterUI) : Prop :=
  ALL_TYPES ∈ f.allowedTypes → f.allowedTypes = {ALL_TYPES}

/-- The non-emptiness property: the allowed set is non-empty and some type
name is accepted. -/
def AcceptsSomething (f : NamedBitSetFilterUI) : Prop :=
  f.allowedTypes ≠ ∅ ∧ ∃ t, f.accept t = true

/-- A suggestion list (`Suggestions` from `SuggestBox.ts`); the claims never
look inside an entry, so each suggestion is kept as its display text. -/
def Suggestions : Type := List String

/-- The outcome of a JS `Promise`: resolved with a value, or rejected. -/
inductive PromiseResult (α : Type) where
  | resolved (value : α)
  | rejected (reason : String)
deriving DecidableEq

/-- State of a `TextFilterUI`: the input's current text and the optional
suggestion provider (`null` at construction). -/
structure TextFilterUI where
  value : String
  suggestionProvider : Option (String → String → Option Bool → PromiseResult Suggestions)

/-- The `TextFilterUI` constructor: empty input, no suggestion provider. -/
def mkTextFilterUI : TextFilterUI :=
  { value := "", suggestionProvider := none }

/-- `TextFilterUI.completions(expression, prefix, force)`: delegate to the
suggestion provider when one is set, otherwise resolve with the empty list. -/
def TextFilterUI.completions (f : TextFilterUI) (expression pfx : String)
    (force : Option Bool) : PromiseResult Suggestions :=
  match f.suggestionProvider with
  | some provider => provider expression pfx force
  | none => .resolved []

/-- `TextFilterUI.isActive()`: `Boolean(value)`, i.e. the text is non-empty. -/
def TextFilterUI.isActive (f : TextFilterUI) : Bool :=
  !(f.value == "")

/-- State of a `CheckboxFilterUI`: the stored polarity and the checkbox's
checked state. -/
structure CheckboxFilterUI where
  activeWhenChecked : Bool
  checked : Bool
deriving DecidableEq

/-- The `CheckboxFilterUI` constructor.  `activeWhenChecked` may be omitted
(`boolean|undefined`) and is coerced with `Boolean(...)`, so `none` behaves
as `false`.  With a setting the checkbox is bound to the setting's stored
boolean (the settings store itself is external to this file's sources and is
modelled from the spec as a boolean get/set store); without one the checkbox
starts checked. -/
def mkCheckboxFilterUI (activeWhenChecked : Option Bool) (setting : Option Bool) :
    CheckboxFilterUI :=
  { activeWhenChecked := activeWhenChecked.getD false
    checked :=
      match setting with
      | some v => v
      | none => true }

/-- `CheckboxFilterUI.setChecked(checked)`. -/
def CheckboxFilterUI.setChecked (f : CheckboxFilterUI) (c : Bool) : CheckboxFilterUI :=
  { f with checked := c }

/-- `CheckboxFilterUI.isActive()`: the checked state equals the polarity. -/
def CheckboxFilterUI.isActive (f : CheckboxFilterUI) : Bool :=
  f.activeWhenChecked == f.checked

/-- A filter added to a `FilterBar`: one of the three `FilterUI`
implementations of `FilterBar.ts`. -/
inductive FilterUI where
  | text (f : TextFilterUI)
  | namedBitSet (f : NamedBitSetFilterUI)
  | checkbox (f : CheckboxFilterUI)

/-- Dynamic dispatch of `FilterUI.isActive()`. -/
def FilterUI.isActive : FilterUI → Bool
  | .text f => f.isActive
  | .namedBitSet f => f.isActive
  | .checkbox f => f.isActive

/-- State of a `FilterBar`: the filters added so far (in order) and the
checked state of its filter button. -/
structure FilterBar where
  filters : List FilterUI
  buttonChecked : Bool

/-- `FilterBar.hasActiveFilter()`: some added filter is active. -/
def FilterBar.hasActiveFilter (b : FilterBar) : Bool :=
  b.filters.any FilterUI.isActive

/-- `FilterBar.updateFilterButton()`: set the filter button's checked state
to `hasActiveFilter()`. -/
def FilterBar.updateFilterButton (b : FilterBar) : FilterBar :=
  { b with buttonChecked := b.hasActiveFilter }

/-- `FilterBar.filterChanged()`, the listener the bar registers on every
added filter's `FILTER_CHANGED` event: update the filter button, then
dispatch one `CHANGED` event.  Returns the new state and the number of
`CHANGED` events dispatched to the bar's listeners. -/
def FilterBar.filterChanged (b : FilterBar) : FilterBar × Nat :=
  (b.updateFilterButton, 1)

/-- `FilterBar.addFilter(filter)`: append the filter, subscribe to its
`FILTER_CHANGED` event, and update the filter button. -/
def FilterBar.addFilter (b : FilterBar) (f : FilterUI) : FilterBar :=
  FilterBar.updateFilterButton { b with filters := b.filters ++ [f] }

end FilterBarTs

namespace INPBreakdownTs

/-- Modelled from the spec: `Trace.Helpers.Timing.traceWindowFromMicroSeconds`
is repository code that is not among this file's sources.  It packages a
start and an end microsecond timestamp into a trace window with `min`, `max`
and `range` fields.  Timestamps are microsecond counts, embedded as `Int`. -/
structure TraceWindowMicro where
  min : Int
  max : Int
  range : Int
deriving DecidableEq

/-- Modelled from the spec: the window built from its two bounds. -/
def traceWindowFromMicroSeconds (lo hi : Int) : TraceWindowMicro :=
  { min := lo, max := hi, range := hi - lo }

/-- The `UIStrings` keys of the INP-breakdown insight that this component
reads. -/
inductive UIStringKey where
  | inputDelay
  | processingDuration
  | presentationDelay
  | noInteractions
  | subpart
  | duration
deriving DecidableEq

/-- Modelled from the spec: the localization string table maps each
`UIStrings` key to display text; the claims never depend on the text, only
on which key each label comes from, so each key maps to a distinct literal. -/
def i18nString : UIStringKey → String
  | .inputDelay => "Input delay"
  | .processingDuration => "Processing duration"
  | .presentationDelay => "Presentation delay"
  | .noInteractions => "No interactions detected"
  | .subpart => "Subpart"
  | .duration => "Duration"

/-- `Trace.Types.Events.SyntheticInteractionPair`, restricted to the fields
this component reads: the start timestamp and the three phase durations, in
microseconds. -/
structure SyntheticInteractionPair where
  ts : Int
  inputDelay : Int
  mainThreadHandling : Int
  presentationDelay : Int
deriving DecidableEq

/-- One section of a `TIMESPAN_BREAKDOWN` overlay. -/
structure OverlaySection where
  bounds : TraceWindowMicro
  label : String
  showDuration : Bool
deriving DecidableEq

/-- The single overlay shape this component produces: a
`TIMESPAN_BREAKDOWN` overlay rendered below the entry event. -/
structure TimespanBreakdownOverlay where
  type : String
  sections : List OverlaySection
  renderLocation : String
  entry : SyntheticInteractionPair
deriving DecidableEq

/-- `#createOverlaysForSbupart(event, subpartIndex)`, threading the event
object's state explicitly: the pair's second component is the event object
as the method leaves it.  A `subpartIndex` of `-1` keeps all three sections;
otherwise the JS code wraps `sections[subpartIndex]` in a singleton list,
which is modelled with `List.get?` (every call site passes `-1`, `0`, `1` or
`2`; outside that range the JS list would hold `undefined`). -/
def createOverlaysForSubpartSt (event : SyntheticInteractionPair) (subpartIndex : Int) :
    List TimespanBreakdownOverlay × SyntheticInteractionPair :=
  let p1 := traceWindowFromMicroSeconds event.ts (event.ts + event.inputDelay)
  let p2 := traceWindowFromMicroSeconds p1.max (p1.max + event.mainThreadHandling)
  let p3 := traceWindowFromMicroSeconds p2.max (p2.max + event.presentationDelay)
  let sections : List OverlaySection :=
    [ { bounds := p1, label := i18nString .inputDelay, showDuration := true }
    , { bounds := p2, label := i18nString .processingDuration, showDuration := true }
    , { bounds := p3, label := i18nString .presentationDelay, showDuration := true } ]
  let sections :=
    if subpartIndex ≠ -1 then (sections.get? subpartIndex.toNat).toList else sections
  ( [ { type := "TIMESPAN_BREAKDOWN"
      , sections := sections
      , renderLocation := "BELOW_EVENT"
      , entry := event } ]
  , event )

/-- `#createOverlaysForSbupart` as the list of overlays it returns. -/
def createOverlaysForSubpart (event : SyntheticInteractionPair) (subpartIndex : Int) :
    List TimespanBreakdownOverlay :=
  (createOverlaysForSubpartSt event subpartIndex).1

/-- `INPBreakdownInsightModel`, restricted to the field this component
reads. -/
structure INPBreakdownInsightModel where
  longestInteractionEvent : Option SyntheticInteractionPair
deriving DecidableEq

/-- `createOverlays()`, threading the model state: no model or no longest
interaction event yields no overlays; otherwise all three subparts. -/
def createOverlaysSt (model : Option INPBreakdownInsightModel) :
    List TimespanBreakdownOverlay × Option INPBreakdownInsightModel :=
  match model with
  | none => ([], none)
  | some m =>
    match m.longestInteractionEvent with
    | none => ([], some m)
    | some event =>
      let r := createOverlaysForSubpartSt event (-1)
      (r.1, some { m with longestInteractionEvent := some r.2 })

/-- `createOverlays()` as the list of overlays it returns. -/
def createOverlays (model : Option INPBreakdownInsightModel) :
    List TimespanBreakdownOverlay :=
  (createOverlaysSt model).1

/-- Modelled from the spec: `i18n.TimeUtilities.millisToString` composed with
the microseconds-to-milliseconds conversion is repository code that is not
among this file's sources; the claims never depend on the rendered text, so
it is kept as the decimal rendering of the microsecond count. -/
def timeString (us : Int) : String :=
  toString us

/-- One row of the `devtools-performance-table` data built by
`renderContent()`. -/
structure TableRow where
  values : List String
  overlays : List TimespanBreakdownOverlay
deriving DecidableEq

/-- The result of `renderContent()`: the "no interactions" section, or the
table with its headers and rows. -/
inductive RenderResult where
  | noInteractions (message : String)
  | table (headers : List String) (rows : List TableRow)
deriving DecidableEq

/-- `renderContent()`, threading the model state through every field read
and overlay construction, in source order. -/
def renderContentSt (model : Option INPBreakdownInsightModel) :
    RenderResult × Option INPBreakdownInsightModel :=
  match model with
  | none => (.noInteractions (i18nString .noInteractions), none)
  | some m =>
    match m.longestInteractionEvent with
    | none => (.noInteractions (i18nString .noInteractions), some m)
    | some event =>
      let v0 := timeString event.inputDelay
      let r0 := createOverlaysForSubpartSt event 0
      let v1 := timeString r0.2.mainThreadHandling
      let r1 := createOverlaysForSubpartSt r0.2 1
      let v2 := timeString r1.2.presentationDelay
      let r2 := createOverlaysForSubpartSt r1.2 2
      ( .table [i18nString .subpart, i18nString .duration]
          [ { values := [i18nString .inputDelay, v0], overlays := r0.1 }
          , { values := [i18nString .processingDuration, v1], overlays := r1.1 }
          , { values := [i18nString .presentationDelay, v2], overlays := r2.1 } ]
      , some { m with longestInteractionEvent := some r2.2 } )

/-- `renderContent()` as the rendered result. -/
def renderContent (model : Option INPBreakdownInsightModel) : RenderResult :=
  (renderContentSt model).1

end INPBreakdownTs

namespace E2eHarness

/-- `Number.MAX_SAFE_INTEGER`, the default attempt cap. -/
def MAX_SAFE_INTEGER : Nat := 2 ^ 53 - 1

/-- The polling loop of `DevToolsPage.waitForFunctionWithTries`.  `fn k` is
the outcome of the `k`-th call of the polled function, where `none` models a
falsy result (in particular `undefined`) and `some v` a truthy one.  The
result triple is the returned value (`none` models the final `undefined`),
the number of calls of `fn`, and the list of delays (in milliseconds) the
loop awaited, one `timeout(100)` after each falsy attempt. -/
def waitLoop {T : Type} (fn : Nat → Option T) : Nat → Nat → Option T × Nat × List Nat
  | _, 0 => (none, 0, [])
  | k, fuel + 1 =>
    match fn k with
    | some v => (some v, 1, [])
    | none =>
      let r := waitLoop fn (k + 1) fuel
      (r.1, r.2.1 + 1, 100 :: r.2.2)

/-- `DevToolsPage.waitForFunctionWithTries(fn, options)`: the JS loop
`while (tries++ < options.tries)` runs the body at most `options.tries`
times. -/
def waitForFunctionWithTries {T : Type} (fn : Nat → Option T) (tries : Nat) :
    Option T × Nat × List Nat :=
  waitLoop fn 0 tries

/-- `waitForFunctionWithTries` with `options` omitted: the cap defaults to
`Number.MAX_SAFE_INTEGER`. -/
def waitForFunctionWithTriesDefault {T : Type} (fn : Nat → Option T) :
    Option T × Nat × List Nat :=
  waitForFunctionWithTries fn MAX_SAFE_INTEGER

/-- `DevToolsPage.waitForWithTries(selector, ...)`: poll the element query
(`this.$(selector, root, handler)`, whose `k`-th outcome is `query k`, with
`element || undefined` collapsing a null element to `undefined`) under the
same attempt cap. -/
def waitForWithTries {T : Type} (query : Nat → Option T) (tries : Nat) :
    Option T × Nat × List Nat :=
  waitForFunctionWithTries query tries

/-- One unfolding step of the polling loop. -/
theorem waitLoop_succ {T : Type} (fn : Nat → Option T) (k n : Nat) :
    waitLoop fn k (n + 1) =
      match fn k with
      | some v => (some v, 1, [])
      | none =>
        let r := waitLoop fn (k + 1) n
        (r.1, r.2.1 + 1, 100 :: r.2.2) := rfl

/-- The loop calls the polled function at most `fuel` times. -/
theorem waitLoop_calls_le {T : Type} (fn : Nat → Option T) (k n : Nat) :
    (waitLoop fn k n).2.1 ≤ n := by
  induction n generalizing k with
  | zero => exact Nat.le_refl 0
  | succ n ih =>
    rw [waitLoop_succ]
    cases hfn : fn k with
    | some v => simp
    | none =>
      simp only []
      exact Nat.succ_le_succ (ih (k + 1))

/-- Every delay the loop awaits is the fixed 100ms. -/
theorem waitLoop_delays {T : Type} (fn : Nat → Option T) (k n : Nat) :
    ∀ d ∈ (waitLoop fn k n).2.2, d = 100 := by
  induction n generalizing k with
  | zero =>
    intro d hd
    exact absurd hd (List.not_mem_nil d)
  | succ n ih =>
    rw [waitLoop_succ]
    cases hfn : fn k with
    | some v =>
      intro d hd
      exact absurd hd (List.not_mem_nil d)
    | none =>
      simp only []
      intro d hd
      rcases List.mem_cons.mp hd with h | h
      · exact h
      · exact ih (k + 1) d h

/-- If every attempt within the cap is falsy, the loop returns `undefined`. -/
theorem waitLoop_none {T : Type} (fn : Nat → Option T) (k n : Nat)
    (h : ∀ j, j < n → fn (k + j) = none) : (waitLoop fn k n).1 = none := by
  induction n generalizing k with
  | zero => rfl
  | succ n ih =>
    rw [waitLoop_succ]
    have h0 : fn k = none := by simpa using h 0 (Nat.succ_pos n)
    simp only [h0]
    exact ih (k + 1) (fun j hj => by
      rw [show k + 1 + j = k + (j + 1) by omega]
      exact h (j + 1) (by omega))

/-- If attempt `j` (zero-based) is the first truthy one and lies within the
cap, the loop returns it after exactly `j + 1` calls. -/
theorem waitLoop_first {T : Type} (fn : Nat → Option T) (k n j : Nat) (hj : j < n)
    (hmin : ∀ i, i < j → fn (k + i) = none) (hs : fn (k + j) ≠ none) :
    (waitLoop fn k n).1 = fn (k + j) ∧ (waitLoop fn k n).2.1 = j + 1 := by
  induction j generalizing k n with
  | zero =>
    cases n with
    | zero => omega
    | succ n =>
      rw [waitLoop_succ]
      cases hv : fn k with
      | none => exact absurd (by simpa using hv) hs
      | some v =>
        constructor
        · simp only []
          rw [Nat.add_zero, hv]
        · rfl
  | succ j ih =>
    cases n with
    | zero => omega
    | succ n =>
      rw [waitLoop_succ]
      have h0 : fn k = none := by simpa using hmin 0 (Nat.succ_pos j)
      simp only [h0]
      have hrec := ih (k + 1) n (by omega)
        (fun i hi => by
          rw [show k + 1 + i = k + (i + 1) by omega]
          exact hmin (i + 1) (by omega))
        (by
          rw [show k + 1 + j = k + (j + 1) by omega]
          exact hs)
      constructor
      · rw [show k + (j + 1) = k + 1 + j by omega]
        exact hrec.1
      · rw [hrec.2]

end E2eHarness



namespace FilterBarTs

/-- `updateOp` only changes the allowed set by normalising it. -/
theorem updateOp_allowed (f : NamedBitSetFilterUI) :
    (updateOp f).1.allowedTypes =
      if f.allowedTypes = ∅ ∨ ALL_TYPES ∈ f.allowedTypes then ({ALL_TYPES} : Finset String)
      else f.allowedTypes := rfl

/-- `update()` establishes the sentinel-exclusivity invariant from any
state. -/
theorem updateOp_sentinelInv (f : NamedBitSetFilterUI) : SentinelInv (updateOp f).1 := by
  intro h
  rw [updateOp_allowed] at h ⊢
  by_cases hc : f.allowedTypes = ∅ ∨ ALL_TYPES ∈ f.allowedTypes
  · rw [if_pos hc]
  · rw [if_neg hc] at h
    exact absurd (Or.inr h) hc

/-- `update()` leaves the allowed set non-empty, from any state. -/
theorem updateOp_nonempty (f : NamedBitSetFilterUI) :
    (updateOp f).1.allowedTypes ≠ ∅ := by
  rw [updateOp_allowed]
  by_cases hc : f.allowedTypes = ∅ ∨ ALL_TYPES ∈ f.allowedTypes
  · rw [if_pos hc]
    simp
  · rw [if_neg hc]
    exact fun h => hc (Or.inl h)

/-- `settingChanged()` is a recomputation followed by `update()`. -/
theorem settingChangedOp_eq (f : NamedBitSetFilterUI) :
    settingChangedOp f =
      updateOp
        { f with
          allowedTypes :=
            (f.typeNames.filter (fun t => !(t == "") && f.settingValue t)).toFinset } := rfl

/-- Every completed `toggleTypeFilter` ends in `update()` applied to some
intermediate state. -/
theorem toggleTypeFilterOp_eq_updateOp (f : NamedBitSetFilterUI) (t : String) (m : Bool) :
    ∃ g, toggleTypeFilterOp f t m = updateOp g := by
  unfold toggleTypeFilterOp
  by_cases hs : f.hasSetting = true
  · rw [if_pos hs, settingChangedOp_eq]
    exact ⟨_, rfl⟩
  · rw [if_neg hs]
    exact ⟨_, rfl⟩

/-- Every completed `settingChanged` ends in `update()` applied to some
intermediate state. -/
theorem settingChangedOp_eq_updateOp (f : NamedBitSetFilterUI) :
    ∃ g, settingChangedOp f = updateOp g :=
  ⟨_, settingChangedOp_eq f⟩

/-- The constructor also ends in `update()`. -/
theorem mkNamedBitSetFilterUI_eq_updateOp (itemNames : List String)
    (setting : Option (String → Bool)) :
    ∃ g, mkNamedBitSetFilterUI itemNames setting = updateOp g := by
  unfold mkNamedBitSetFilterUI
  cases setting with
  | none => exact toggleTypeFilterOp_eq_updateOp _ _ _
  | some s => exact settingChangedOp_eq_updateOp _

/-- Membership in the set `settingChanged()` rebuilds from the setting. -/
theorem mem_settingRebuilt (f : NamedBitSetFilterUI) (x : String) :
    x ∈ (f.typeNames.filter (fun t => !(t == "") && f.settingValue t)).toFinset ↔
      x ∈ f.typeNames ∧ x ≠ "" ∧ f.settingValue x = true := by
  simp [List.mem_filter, and_assoc]

/-- Every operation dispatches exactly one `FILTER_CHANGED` event:
`toggleTypeFilter` here. -/
theorem toggleTypeFilterOp_events (f : NamedBitSetFilterUI) (t : String) (m : Bool) :
    (toggleTypeFilterOp f t m).2 = 1 := by
  obtain ⟨g, hg⟩ := toggleTypeFilterOp_eq_updateOp f t m
  rw [hg]
  rfl

/-- Membership in `update()`'s result, for a name other than the sentinel. -/
theorem mem_updateOp_of_ne_all (g : NamedBitSetFilterUI) (x : String)
    (hx : x ≠ ALL_TYPES) :
    x ∈ (updateOp g).1.allowedTypes ↔
      x ∈ g.allowedTypes ∧ ALL_TYPES ∉ g.allowedTypes := by
  rw [updateOp_allowed]
  by_cases hc : g.allowedTypes = ∅ ∨ ALL_TYPES ∈ g.allowedTypes
  · rw [if_pos hc]
    simp only [Finset.mem_singleton]
    constructor
    · exact fun h => absurd h hx
    · rintro ⟨hxg, hall⟩
      rcases hc with hc | hc
      · rw [hc] at hxg
        exact absurd hxg (Finset.not_mem_empty x)
      · exact absurd hc hall
  · rw [if_neg hc]
    push_neg at hc
    exact ⟨fun h => ⟨h, hc.2⟩, fun h => h.1⟩

/-- `update()`'s result when the incoming set is a singleton `{t}`. -/
theorem updateOp_singleton (g : NamedBitSetFilterUI) (t : String)
    (h : g.allowedTypes = {t}) : (updateOp g).1.allowedTypes = {t} := by
  rw [updateOp_allowed, h]
  by_cases hAll : ALL_TYPES = t
  · rw [if_pos (Or.inr (Finset.mem_singleton.mpr hAll)), hAll]
  · rw [if_neg]
    rintro (hemp | hmem)
    · exact Finset.singleton_ne_empty t hemp
    · exact hAll (Finset.mem_singleton.mp hmem)

/-- Clicking a bit without multi-select (or clicking the sentinel) rewrites
the set to exactly the clicked name. -/
theorem toggledSet_single (s : Finset String) (t : String) (m : Bool)
    (h : m = false ∨ t = ALL_TYPES) : toggledSet s t m = {t} := by
  have h1 : (m && !(t == ALL_TYPES)) = false := by
    rcases h with h | h
    · rw [h, Bool.false_and]
    · rw [h]
      simp
  unfold toggledSet
  rw [h1]
  simp only [Bool.false_eq_true, if_false]
  rw [if_neg (Finset.not_mem_empty t)]
  rw [if_neg (Finset.insert_ne_empty t ∅)]
  rfl

/-- With multi-select on a non-sentinel name that is currently selected, the
clicked name leaves the rewritten set, and the sentinel can only be there
via the empty-set refill, in which case the set is exactly the sentinel. -/
theorem toggledSet_multi_mem (s : Finset String) (t : String)
    (htAll : t ≠ ALL_TYPES) (hmem : t ∈ s) :
    t ∉ toggledSet s t true ∧
      (ALL_TYPES ∈ toggledSet s t true → toggledSet s t true = {ALL_TYPES}) := by
  have h1 : (true && !(t == ALL_TYPES)) = true := by
    simp [htAll]
  have hmem1 : t ∈ s.erase ALL_TYPES := Finset.mem_erase.mpr ⟨htAll, hmem⟩
  unfold toggledSet
  rw [h1]
  simp only [eq_self_iff_true, if_true]
  rw [if_pos hmem1]
  by_cases hemp : (s.erase ALL_TYPES).erase t = ∅
  · rw [if_pos hemp, hemp]
    constructor
    · simp [htAll]
    · intro _
      rfl
  · rw [if_neg hemp]
    exact ⟨Finset.not_mem_erase t _,
      fun hAll => absurd (Finset.mem_of_mem_erase hAll) (Finset.not_mem_erase ALL_TYPES s)⟩

/-- With multi-select on a non-sentinel name that is not currently selected,
the clicked name joins the rewritten set and the sentinel is not in it. -/
theorem toggledSet_multi_not_mem (s : Finset String) (t : String)
    (htAll : t ≠ ALL_TYPES) (hmem : t ∉ s) :
    t ∈ toggledSet s t true ∧ ALL_TYPES ∉ toggledSet s t true := by
  have h1 : (true && !(t == ALL_TYPES)) = true := by
    simp [htAll]
  have hmem1 : t ∉ s.erase ALL_TYPES := fun h => hmem (Finset.mem_of_mem_erase h)
  unfold toggledSet
  rw [h1]
  simp only [eq_self_iff_true, if_true]
  rw [if_neg hmem1]
  rw [if_neg (Finset.insert_ne_empty t _)]
  refine ⟨Finset.mem_insert_self t _, fun hAll => ?_⟩
  rcases Finset.mem_insert.mp hAll with h | h
  · exact htAll h.symm
  · exact Finset.not_mem_erase ALL_TYPES s h

/-- `toggleTypeFilter` without a backing setting: rewrite the set, then
`update()`. -/
theorem toggleTypeFilterOp_eq_noSetting (f : NamedBitSetFilterUI) (t : String) (m : Bool)
    (hs : f.hasSetting = false) :
    toggleTypeFilterOp f t m =
      updateOp { f with allowedTypes := toggledSet f.allowedTypes t m } := by
  unfold toggleTypeFilterOp
  rw [hs]
  simp only [Bool.false_eq_true, if_false]

/-- `toggleTypeFilter` with a backing setting: rewrite the set, write it
back, and let the change notification run `settingChanged()`. -/
theorem toggleTypeFilterOp_eq_setting (f : NamedBitSetFilterUI) (t : String) (m : Bool)
    (hs : f.hasSetting = true) :
    toggleTypeFilterOp f t m =
      settingChangedOp
        { f with
          allowedTypes := toggledSet f.allowedTypes t m
          settingValue := fun u => decide (u ∈ toggledSet f.allowedTypes t m) } := by
  unfold toggleTypeFilterOp
  rw [hs]
  simp only [eq_self_iff_true, if_true]

/-- `update()`'s result is the sentinel singleton whenever every member of
the incoming set is the sentinel. -/
theorem updateOp_all_of_subsingleton (g : NamedBitSetFilterUI)
    (h : ∀ x ∈ g.allowedTypes, x = ALL_TYPES) :
    (updateOp g).1.allowedTypes = {ALL_TYPES} := by
  rw [updateOp_allowed]
  rcases Finset.eq_empty_or_nonempty g.allowedTypes with he | ⟨x, hx⟩
  · rw [if_pos (Or.inl he)]
  · rw [if_pos (Or.inr (h x hx ▸ hx))]

/-- `update()` always leaves a state that accepts some type name. -/
theorem updateOp_accepts (g : NamedBitSetFilterUI) : AcceptsSomething (updateOp g).1 := by
  refine ⟨updateOp_nonempty g, ?_⟩
  obtain ⟨x, hx⟩ := Finset.nonempty_iff_ne_empty.mpr (updateOp_nonempty g)
  exact ⟨x, by simp [NamedBitSetFilterUI.accept, hx]⟩

/-- Toggling the sentinel from any state leaves exactly the sentinel. -/
theorem toggle_all_allowed (f : NamedBitSetFilterUI) (m : Bool) :
    (toggleTypeFilterOp f ALL_TYPES m).1.allowedTypes = {ALL_TYPES} := by
  have hset : toggledSet f.allowedTypes ALL_TYPES m = {ALL_TYPES} :=
    toggledSet_single f.allowedTypes ALL_TYPES m (Or.inr rfl)
  cases hs : f.hasSetting with
  | false =>
    rw [toggleTypeFilterOp_eq_noSetting f ALL_TYPES m hs]
    exact updateOp_singleton _ ALL_TYPES hset
  | true =>
    rw [toggleTypeFilterOp_eq_setting f ALL_TYPES m hs, settingChangedOp_eq]
    apply updateOp_all_of_subsingleton
    intro x hxmem
    rw [mem_settingRebuilt] at hxmem
    have := hxmem.2.2
    simp only [hset] at this
    have : x ∈ ({ALL_TYPES} : Finset String) := by simpa using this
    exact Finset.mem_singleton.mp this

/-- Clicking a present bit without multi-select, or the sentinel with any
modifier, makes it the sole selection — provided the bit's name is non-empty
or the filter has no backing setting (`settingChanged`'s truthiness check
drops an empty name on the write-back path). -/
theorem toggle_final_single (f : NamedBitSetFilterUI) (t : String) (m : Bool)
    (hm : m = false ∨ t = ALL_TYPES) (ht : t ∈ f.typeNames)
    (hok : t ≠ "" ∨ f.hasSetting = false) :
    (toggleTypeFilterOp f t m).1.allowedTypes = {t} := by
  have hset : toggledSet f.allowedTypes t m = {t} := toggledSet_single f.allowedTypes t m hm
  cases hs : f.hasSetting with
  | false =>
    rw [toggleTypeFilterOp_eq_noSetting f t m hs]
    exact updateOp_singleton _ t hset
  | true =>
    have hne : t ≠ "" := by
      rcases hok with h | h
      · exact h
      · rw [hs] at h
        exact absurd h (by decide)
    rw [toggleTypeFilterOp_eq_setting f t m hs, settingChangedOp_eq]
    apply updateOp_singleton
    apply Finset.ext
    intro x
    rw [mem_settingRebuilt]
    simp only [hset, Finset.mem_singleton, decide_eq_true_eq]
    constructor
    · rintro ⟨-, -, h⟩
      exact h
    · rintro rfl
      exact ⟨ht, hne, rfl⟩

/-- Clicking a present non-sentinel bit with multi-select toggles its
membership in the allowed set — provided the bit's name is non-empty or the
filter has no backing setting. -/
theorem toggle_membership_multi (f : NamedBitSetFilterUI) (t : String)
    (htAll : t ≠ ALL_TYPES) (ht : t ∈ f.typeNames)
    (hok : t ≠ "" ∨ f.hasSetting = false) :
    (t ∈ (toggleTypeFilterOp f t true).1.allowedTypes ↔ t ∉ f.allowedTypes) := by
  by_cases hmem : t ∈ f.allowedTypes
  · obtain ⟨hnotin, -⟩ := toggledSet_multi_mem f.allowedTypes t htAll hmem
    suffices h : t ∉ (toggleTypeFilterOp f t true).1.allowedTypes by
      exact ⟨fun h' => absurd h' h, fun h' => absurd hmem h'⟩
    cases hs : f.hasSetting with
    | false =>
      rw [toggleTypeFilterOp_eq_noSetting f t true hs, mem_updateOp_of_ne_all _ t htAll]
      rintro ⟨h1, -⟩
      exact hnotin h1
    | true =>
      rw [toggleTypeFilterOp_eq_setting f t true hs, settingChangedOp_eq,
        mem_updateOp_of_ne_all _ t htAll]
      rintro ⟨hrebuilt, -⟩
      rw [mem_settingRebuilt] at hrebuilt
      exact hnotin (by simpa using hrebuilt.2.2)
  · obtain ⟨hin, hallnot⟩ := toggledSet_multi_not_mem f.allowedTypes t htAll hmem
    suffices h : t ∈ (toggleTypeFilterOp f t true).1.allowedTypes by
      exact ⟨fun _ => hmem, fun _ => h⟩
    cases hs : f.hasSetting with
    | false =>
      rw [toggleTypeFilterOp_eq_noSetting f t true hs, mem_updateOp_of_ne_all _ t htAll]
      exact ⟨hin, hallnot⟩
    | true =>
      have hne : t ≠ "" := by
        rcases hok with h | h
        · exact h
        · rw [hs] at h
          exact absurd h (by decide)
      rw [toggleTypeFilterOp_eq_setting f t true hs, settingChangedOp_eq,
        mem_updateOp_of_ne_all _ t htAll]
      constructor
      · rw [mem_settingRebuilt]
        exact ⟨ht, hne, by simpa using hin⟩
      · rw [mem_settingRebuilt]
        rintro ⟨-, -, hval⟩
        exact hallnot (by simpa using hval)

/-- Why the non-empty-name (or no-setting) proviso is needed: for a
setting-backed filter with a bit named `""`, `settingChanged`'s truthiness
check `if (typeName && ...)` drops the empty name on the write-back path,
so a multi-select click on that bit leaves it unselected before and after
(no toggle), and a plain click leaves the set at `{"all"}`, not `{""}` (no
sole selection). -/
theorem emptyName_setting_click_failure :
    selected (mkNamedBitSetFilterUI ["", "b"] (some (fun u => u == "b"))).1 "" = false ∧
    selected (onTypeFilterClicked
        (mkNamedBitSetFilterUI ["", "b"] (some (fun u => u == "b"))).1 false
        ⟨false, true, false, false⟩ "").1 "" = false ∧
    (onTypeFilterClicked
        (mkNamedBitSetFilterUI ["", "b"] (some (fun u => u == "b"))).1 false
        ⟨false, false, false, false⟩ "").1.allowedTypes = {ALL_TYPES} := by
  decide

end FilterBarTs

section Claims

open FilterBarTs INPBreakdownTs E2eHarness

/-- C1: for the named bit-set filter, the `'all'` sentinel is mutually
exclusive with any specific selection: after construction and after every
completed `toggleTypeFilter`, `reset` and `settingChanged`, if the allowed
set contains `ALL_TYPES` then it is exactly `{ALL_TYPES}`. -/
theorem c1_all_sentinel_mutually_exclusive (itemNames : List String)
    (setting : Option (String → Bool)) (f : NamedBitSetFilterUI) (t : String) (m : Bool) :
    SentinelInv (mkNamedBitSetFilterUI itemNames setting).1 ∧
    SentinelInv (toggleTypeFilterOp f t m).1 ∧
    SentinelInv (resetOp f).1 ∧
    SentinelInv (settingChangedOp f).1 := by
  refine ⟨?_, ?_, ?_, ?_⟩
  · obtain ⟨g, hg⟩ := mkNamedBitSetFilterUI_eq_updateOp itemNames setting
    rw [hg]
    exact updateOp_sentinelInv g
  · obtain ⟨g, hg⟩ := toggleTypeFilterOp_eq_updateOp f t m
    rw [hg]
    exact updateOp_sentinelInv g
  · unfold resetOp
    obtain ⟨g, hg⟩ := toggleTypeFilterOp_eq_updateOp f ALL_TYPES false
    rw [hg]
    exact updateOp_sentinelInv g
  · obtain ⟨g, hg⟩ := settingChangedOp_eq_updateOp f
    rw [hg]
    exact updateOp_sentinelInv g

/-- Witness for C1: on a concrete filter, after toggling the sentinel the
sentinel is selected, so by C1 the allowed set is exactly the sentinel. -/
theorem c1_all_sentinel_mutually_exclusive_witness :
    (toggleTypeFilterOp (mkNamedBitSetFilterUI ["a", "b"] none).1
        ALL_TYPES false).1.allowedTypes = {ALL_TYPES} :=
  (c1_all_sentinel_mutually_exclusive ["a", "b"] none
      (mkNamedBitSetFilterUI ["a", "b"] none).1 ALL_TYPES false).2.1 (by decide)

/-- C2 counterexample: clicking the `'all'` bit of a freshly constructed
filter (no multi-select modifier) does not toggle that bit's selected state:
it is selected both before and after the click. -/
theorem c2_click_counterexample :
    selected (mkNamedBitSetFilterUI ["a", "b"] none).1 ALL_TYPES = true ∧
    selected (onTypeFilterClicked (mkNamedBitSetFilterUI ["a", "b"] none).1 false
        ⟨false, false, false, false⟩ ALL_TYPES).1 ALL_TYPES = true := by
  decide

/-- C2 amended: every click on a type-filter bit fires exactly one
filter-changed event, unconditionally.  If moreover the clicked bit is one
of the filter's bits and its name is non-empty or the filter has no backing
setting (`FilterBarTs.emptyName_setting_click_failure` shows an empty-named
bit of a setting-backed filter violates both parts), then a click with the
multi-select modifier on a non-sentinel bit toggles that bit's selected
state, and a click without the modifier (or on the sentinel bit) makes the
clicked bit the sole selection. -/
theorem c2_click_toggles_amended (f : NamedBitSetFilterUI) (isMac : Bool)
    (e : ClickModifiers) (t : String) :
    (onTypeFilterClicked f isMac e t).2 = 1 ∧
    (t ∈ f.typeNames → (t ≠ "" ∨ f.hasSetting = false) →
      (multiSelectModifier isMac e = true → t ≠ ALL_TYPES →
        selected (onTypeFilterClicked f isMac e t).1 t = !(selected f t)) ∧
      (multiSelectModifier isMac e = false ∨ t = ALL_TYPES →
        (onTypeFilterClicked f isMac e t).1.allowedTypes = {t})) := by
  unfold onTypeFilterClicked
  refine ⟨toggleTypeFilterOp_events f t _, fun ht hok => ⟨?_, ?_⟩⟩
  · intro hms htAll
    rw [hms]
    have hiff := toggle_membership_multi f t htAll ht hok
    by_cases hmem : t ∈ f.allowedTypes
    · have hres : t ∉ (toggleTypeFilterOp f t true).1.allowedTypes :=
        fun h' => (hiff.mp h') hmem
      simp [selected, hmem, hres]
    · have hres : t ∈ (toggleTypeFilterOp f t true).1.allowedTypes := hiff.mpr hmem
      simp [selected, hmem, hres]
  · intro hcase
    exact toggle_final_single f t _ hcase ht hok

/-- Witness for C2 amended: a ctrl-click on the `"a"` bit of a concrete
filter fires one event and selects the bit. -/
theorem c2_click_toggles_amended_witness :
    (onTypeFilterClicked (mkNamedBitSetFilterUI ["a", "b"] none).1 false
        ⟨false, true, false, false⟩ "a").2 = 1 ∧
    selected (onTypeFilterClicked (mkNamedBitSetFilterUI ["a", "b"] none).1 false
        ⟨false, true, false, false⟩ "a").1 "a" = true := by
  have h := c2_click_toggles_amended (mkNamedBitSetFilterUI ["a", "b"] none).1 false
      ⟨false, true, false, false⟩ "a"
  refine ⟨h.1, ?_⟩
  have h2 := (h.2 (by decide) (Or.inl (by decide))).1 (by decide) (by decide)
  rw [h2]
  decide

/-- C3: toggling the sentinel (with or without multi-select) from any state
clears every specific selection, leaving exactly `{ALL_TYPES}`, and
`isActive()` is false afterwards. -/
theorem c3_select_all_clears (f : NamedBitSetFilterUI) (m : Bool) :
    (toggleTypeFilterOp f ALL_TYPES m).1.allowedTypes = {ALL_TYPES} ∧
    (toggleTypeFilterOp f ALL_TYPES m).1.isActive = false := by
  have h := toggle_all_allowed f m
  refine ⟨h, ?_⟩
  simp [NamedBitSetFilterUI.isActive, h]

/-- C4: `CheckboxFilterUI.isActive()` is true exactly when the checkbox's
checked state equals the configured polarity, with an omitted polarity
behaving as `false`. -/
theorem c4_checkbox_polarity (awc : Option Bool) (setting : Option Bool) (c : Bool) :
    (((mkCheckboxFilterUI awc setting).setChecked c).isActive = true ↔
      c = awc.getD false) ∧
    mkCheckboxFilterUI none setting = mkCheckboxFilterUI (some false) setting := by
  constructor
  · cases awc with
    | none =>
      cases c <;>
        simp [mkCheckboxFilterUI, CheckboxFilterUI.setChecked, CheckboxFilterUI.isActive]
    | some b =>
      cases b <;> cases c <;>
        simp [mkCheckboxFilterUI, CheckboxFilterUI.setChecked, CheckboxFilterUI.isActive]
  · rfl

/-- C5: `waitForFunctionWithTries` calls the polled function at most `n`
times with a fixed 100ms delay after each falsy attempt, returns the first
truthy result within the cap, returns `undefined` (it never throws) once the
cap is exhausted with only falsy results, and the cap defaults to
`Number.MAX_SAFE_INTEGER`. -/
theorem c5_wait_for_function_with_tries {T : Type} (fn : Nat → Option T) (n j : Nat) :
    (waitForFunctionWithTries fn n).2.1 ≤ n ∧
    (∀ d ∈ (waitForFunctionWithTries fn n).2.2, d = 100) ∧
    ((∀ i, i < n → fn i = none) → (waitForFunctionWithTries fn n).1 = none) ∧
    (j < n → (∀ i, i < j → fn i = none) → fn j ≠ none →
      (waitForFunctionWithTries fn n).1 = fn j ∧
        (waitForFunctionWithTries fn n).2.1 = j + 1) ∧
    waitForFunctionWithTriesDefault fn = waitForFunctionWithTries fn (2 ^ 53 - 1) := by
  refine ⟨waitLoop_calls_le fn 0 n, waitLoop_delays fn 0 n, ?_, ?_, rfl⟩
  · intro h
    exact waitLoop_none fn 0 n (fun i hi => by simpa using h i hi)
  · intro hj hmin hs
    have h := waitLoop_first fn 0 n j hj (fun i hi => by simpa using hmin i hi)
      (by simpa using hs)
    simpa using h

/-- Witness for C5: a polled function that first succeeds on its third call,
under a cap of 5, yields that result after exactly 3 calls. -/
theorem c5_wait_for_function_with_tries_witness :
    (waitForFunctionWithTries (fun k => if k = 2 then some 7 else none) 5).1 = some 7 ∧
    (waitForFunctionWithTries (fun k => if k = 2 then some 7 else none) 5).2.1 = 3 := by
  have h := (c5_wait_for_function_with_tries (fun k => if k = 2 then some 7 else none) 5 2).2.2.2.1
    (by decide)
    (by
      intro i hi
      have h01 : i = 0 ∨ i = 1 := by omega
      rcases h01 with rfl | rfl <;> rfl)
    (by simp)
  refine ⟨?_, h.2⟩
  rw [h.1]
  rfl

/-- C6: when an added filter fires `FILTER_CHANGED`, the `FilterBar`
dispatches exactly one `CHANGED` event and sets its filter button's checked
state to `hasActiveFilter()`, which is true iff some added filter is
active. -/
theorem c6_filterbar_change (b : FilterBar) (f : FilterUI) :
    ((b.addFilter f).filterChanged).2 = 1 ∧
    ((b.addFilter f).filterChanged).1.buttonChecked = (b.addFilter f).hasActiveFilter ∧
    ((b.addFilter f).hasActiveFilter = true ↔
      ∃ g ∈ (b.addFilter f).filters, g.isActive = true) := by
  refine ⟨rfl, rfl, ?_⟩
  simp [FilterBar.hasActiveFilter, List.any_eq_true]

/-- C7: `createOverlays` and `renderContent` consume the insight model
read-only: the threaded post-state equals the input model, and in particular
the longest interaction event's `ts`, `inputDelay`, `mainThreadHandling` and
`presentationDelay` are unchanged. -/
theorem c7_model_read_only (model : Option INPBreakdownInsightModel) :
    (createOverlaysSt model).2 = model ∧
    (renderContentSt model).2 = model ∧
    ((createOverlaysSt model).2.bind (fun m => m.longestInteractionEvent)).map
        (fun e => (e.ts, e.inputDelay, e.mainThreadHandling, e.presentationDelay)) =
      (model.bind (fun m => m.longestInteractionEvent)).map
        (fun e => (e.ts, e.inputDelay, e.mainThreadHandling, e.presentationDelay)) ∧
    ((renderContentSt model).2.bind (fun m => m.longestInteractionEvent)).map
        (fun e => (e.ts, e.inputDelay, e.mainThreadHandling, e.presentationDelay)) =
      (model.bind (fun m => m.longestInteractionEvent)).map
        (fun e => (e.ts, e.inputDelay, e.mainThreadHandling, e.presentationDelay)) := by
  rcases model with _ | ⟨_ | e⟩ <;> exact ⟨rfl, rfl, rfl, rfl⟩

/-- C8: with no suggestion provider set, `TextFilterUI.completions` resolves
to the empty suggestion list for every expression and prefix. -/
theorem c8_completions_empty (f : TextFilterUI) (h : f.suggestionProvider = none)
    (expression pfx : String) (force : Option Bool) :
    f.completions expression pfx force = PromiseResult.resolved [] := by
  unfold TextFilterUI.completions
  rw [h]

/-- Witness for C8: the freshly constructed `TextFilterUI` has no provider,
so its completions resolve empty. -/
theorem c8_completions_empty_witness :
    mkTextFilterUI.completions "url:a.com/b" "url:" none = PromiseResult.resolved [] :=
  c8_completions_empty mkTextFilterUI rfl "url:a.com/b" "url:" none

/-- C9: after construction and after every completed operation, the allowed
set is non-empty and some type name is accepted, so the filter never
rejects every record. -/
theorem c9_never_rejects_everything (itemNames : List String)
    (setting : Option (String → Bool)) (f : NamedBitSetFilterUI) (t : String) (m : Bool) :
    AcceptsSomething (mkNamedBitSetFilterUI itemNames setting).1 ∧
    AcceptsSomething (toggleTypeFilterOp f t m).1 ∧
    AcceptsSomething (resetOp f).1 ∧
    AcceptsSomething (settingChangedOp f).1 := by
  refine ⟨?_, ?_, ?_, ?_⟩
  · obtain ⟨g, hg⟩ := mkNamedBitSetFilterUI_eq_updateOp itemNames setting
    rw [hg]
    exact updateOp_accepts g
  · obtain ⟨g, hg⟩ := toggleTypeFilterOp_eq_updateOp f t m
    rw [hg]
    exact updateOp_accepts g
  · unfold resetOp
    obtain ⟨g, hg⟩ := toggleTypeFilterOp_eq_updateOp f ALL_TYPES false
    rw [hg]
    exact updateOp_accepts g
  · obtain ⟨g, hg⟩ := settingChangedOp_eq_updateOp f
    rw [hg]
    exact updateOp_accepts g

/-- C10: the TIMESPAN_BREAKDOWN overlay has exactly three contiguous
sections in order — the first spans `[ts, ts + inputDelay]`, each next one
starts at the previous one's `max`, and the last ends at
`ts + inputDelay + mainThreadHandling + presentationDelay`; with subpart
index 0, 1 or 2 the overlay holds exactly that one section. -/
theorem c10_overlay_sections (e : SyntheticInteractionPair) :
    ∃ s1 s2 s3 : OverlaySection,
      createOverlaysForSubpart e (-1) =
        [⟨"TIMESPAN_BREAKDOWN", [s1, s2, s3], "BELOW_EVENT", e⟩] ∧
      s1.bounds.min = e.ts ∧
      s1.bounds.max = e.ts + e.inputDelay ∧
      s2.bounds.min = s1.bounds.max ∧
      s2.bounds.max = s1.bounds.max + e.mainThreadHandling ∧
      s3.bounds.min = s2.bounds.max ∧
      s3.bounds.max = e.ts + e.inputDelay + e.mainThreadHandling + e.presentationDelay ∧
      createOverlaysForSubpart e 0 = [⟨"TIMESPAN_BREAKDOWN", [s1], "BELOW_EVENT", e⟩] ∧
      createOverlaysForSubpart e 1 = [⟨"TIMESPAN_BREAKDOWN", [s2], "BELOW_EVENT", e⟩] ∧
      createOverlaysForSubpart e 2 = [⟨"TIMESPAN_BREAKDOWN", [s3], "BELOW_EVENT", e⟩] := by
  refine ⟨⟨traceWindowFromMicroSeconds e.ts (e.ts + e.inputDelay),
      i18nString .inputDelay, true⟩,
    ⟨traceWindowFromMicroSeconds (e.ts + e.inputDelay)
        (e.ts + e.inputDelay + e.mainThreadHandling),
      i18nString .processingDuration, true⟩,
    ⟨traceWindowFromMicroSeconds (e.ts + e.inputDelay + e.mainThreadHandling)
        (e.ts + e.inputDelay + e.mainThreadHandling + e.presentationDelay),
      i18nString .presentationDelay, true⟩,
    rfl, rfl, rfl, rfl, rfl, rfl, rfl, rfl, rfl, rfl⟩

end Claims
